import Mathlib

/-!
Shallow embedding of the Terminal-Orchestrator-MCP core
(`src/utils/errors.ts` — PaneIdResolver, FileWatcher, CommandEscaper;
`src/core/mcp-integrator.ts` — McpIntegrator; the LogAnalyzer and
ErrorWatcher classes) together with theorems settling the spec claims.

JavaScript `Map<string, V>` objects are modelled as association lists in
insertion order (`Map.set` updates in place, `Map.delete` removes the
entry, iteration follows insertion order). JavaScript strings are Lean
`String`s; character-level operations go through `String.data`.
Timestamps (`Date.now()`, `new Date()`) are modelled as `Nat` parameters.
-/

namespace TOrch

/-! ### Association-list model of JavaScript `Map<string, α>` -/

def sget {α : Type} : List (String × α) → String → Option α
  | [], _ => none
  | (k', v) :: rest, k => if k' = k then some v else sget rest k

def sset {α : Type} : List (String × α) → String → α → List (String × α)
  | [], k, v => [(k, v)]
  | (k', v') :: rest, k, v =>
    if k' = k then (k, v) :: rest else (k', v') :: sset rest k v

def serase {α : Type} : List (String × α) → String → List (String × α)
  | [], _ => []
  | (k', v') :: rest, k =>
    if k' = k then serase rest k else (k', v') :: serase rest k

/-- `Map.values()` in insertion order. -/
def svalues {α : Type} (m : List (String × α)) : List α := m.map (·.2)

/-! ### JavaScript string helpers -/

/-- JS `s.startsWith('%')` for the one-character prefix used by the resolver. -/
def startsWithPercent (s : String) : Bool :=
  match s.data with
  | [] => false
  | c :: _ => c = '%'

/-- JS `s.includes(c)` for a one-character needle. -/
def jsIncludesChar (s : String) (c : Char) : Bool := s.data.contains c

/-- JS `String.prototype.split(sep)` with a one-character separator,
character-list level. -/
def splitChar (sep : Char) : List Char → List (List Char)
  | [] => [[]]
  | c :: rest =>
    match splitChar sep rest with
    | [] => [[]]
    | h :: t => if c = sep then [] :: h :: t else (c :: h) :: t

def jsSplit (sep : Char) (s : String) : List String :=
  (splitChar sep s.data).map (fun l => ⟨l⟩)

/-- The whitespace class of JS `\s` (restricted to the ASCII range that the
repository's inputs use). -/
def jsWhitespace (c : Char) : Bool :=
  c = ' ' || c = '\t' || c = '\n' || c = '\r' || c = '\x0b' || c = '\x0c'

def digitsPrefixVal (l : List Char) : Option Nat :=
  let ds := l.takeWhile Char.isDigit
  if ds.isEmpty then none
  else some (ds.foldl (fun acc c => acc * 10 + (c.toNat - '0'.toNat)) 0)

/-- JS `parseInt(s, 10)`: skip leading whitespace, optional sign, longest
digit prefix; `none` models `NaN`. -/
def jsParseInt (s : String) : Option Int :=
  let t := s.data.dropWhile jsWhitespace
  match t with
  | '-' :: rest => (digitsPrefixVal rest).map (fun n => -(n : Int))
  | '+' :: rest => (digitsPrefixVal rest).map (fun n => (n : Int))
  | _ => (digitsPrefixVal t).map (fun n => (n : Int))

/-! ### PaneIdResolver (`src/utils/errors.ts`, class `PaneIdResolver`) -/

structure PaneMapping where
  nativeId : String
  structuredId : String
  sessionName : String
  windowIndex : Nat
  paneIndex : Nat
  lastSeen : Nat
deriving DecidableEq

structure ResolverState where
  nativeToStructured : List (String × PaneMapping)
  structuredToNative : List (String × PaneMapping)
deriving DecidableEq

def initResolver : ResolverState := ⟨[], []⟩

/-- `buildStructuredId`: the template literal
`` `${sessionName}:${windowIndex}.${paneIndex}` ``. -/
def buildStructuredId (sessionName : String) (windowIndex paneIndex : Nat) : String :=
  sessionName ++ ":" ++ Nat.repr windowIndex ++ "." ++ Nat.repr paneIndex

/-- `registerPane`: evict a stale native entry when the structured slot was
held by a different native id, then install the new mapping in both maps.
Returns the structured id as the source does. -/
def registerPane (st : ResolverState) (nativeId sessionName : String)
    (windowIndex paneIndex : Nat) (now : Nat) : ResolverState × String :=
  let structuredId := buildStructuredId sessionName windowIndex paneIndex
  let mapping : PaneMapping :=
    { nativeId, structuredId, sessionName, windowIndex, paneIndex, lastSeen := now }
  let st1 :=
    match sget st.structuredToNative structuredId with
    | some existing =>
      if existing.nativeId ≠ nativeId then
        { st with nativeToStructured := serase st.nativeToStructured existing.nativeId }
      else st
    | none => st
  ({ nativeToStructured := sset st1.nativeToStructured nativeId mapping
     structuredToNative := sset st1.structuredToNative structuredId mapping },
   structuredId)

/-- `updateLastSeen`: the source mutates the shared `PaneMapping` object, so
the refresh is visible through both maps exactly when the reverse entry is
that same object; value equality stands in for object identity here. -/
def updateLastSeen (st : ResolverState) (nativeId : String) (now : Nat) : ResolverState :=
  match sget st.nativeToStructured nativeId with
  | none => st
  | some m =>
    { nativeToStructured := sset st.nativeToStructured nativeId { m with lastSeen := now }
      structuredToNative :=
        match sget st.structuredToNative m.structuredId with
        | some m2 =>
          if m2 = m then sset st.structuredToNative m.structuredId { m with lastSeen := now }
          else st.structuredToNative
        | none => st.structuredToNative }

/-- `attemptStructuredResolution`: parse `session:window.pane` and scan the
native-map values (insertion order) for a matching position. -/
def attemptStructuredResolution (st : ResolverState) (structuredId : String) : Option String :=
  match jsSplit ':' structuredId with
  | [sessionName, windowPane] =>
    match jsSplit '.' windowPane with
    | [wPart, pPart] =>
      match jsParseInt wPart, jsParseInt pPart with
      | some windowIndex, some paneIndex =>
        ((svalues st.nativeToStructured).find? fun m =>
          m.sessionName = sessionName ∧ (m.windowIndex : Int) = windowIndex ∧
            (m.paneIndex : Int) = paneIndex).map (·.nativeId)
      | _, _ => none
    | _ => none
  | _ => none

/-- `resolveToNative`; the `if (resolvedNative)` truthiness test makes an
empty reconstructed id fall through to the input. -/
def resolveToNative (st : ResolverState) (paneId : String) (now : Nat) :
    String × ResolverState :=
  if startsWithPercent paneId = true then (paneId, updateLastSeen st paneId now)
  else
    match sget st.structuredToNative paneId with
    | some mapping => (mapping.nativeId, updateLastSeen st mapping.nativeId now)
    | none =>
      if jsIncludesChar paneId ':' && jsIncludesChar paneId '.' then
        match attemptStructuredResolution st paneId with
        | some resolvedNative =>
          if resolvedNative.isEmpty then (paneId, st) else (resolvedNative, st)
        | none => (paneId, st)
      else (paneId, st)

def resolveToStructured (st : ResolverState) (paneId : String) (now : Nat) :
    String × ResolverState :=
  if startsWithPercent paneId = false then (paneId, st)
  else
    match sget st.nativeToStructured paneId with
    | some mapping => (mapping.structuredId, updateLastSeen st paneId now)
    | none => (paneId, st)

def getSessionMappings (st : ResolverState) (sessionName : String) : List PaneMapping :=
  (svalues st.nativeToStructured).filter (fun m => m.sessionName = sessionName)

/-- `clearSession`: delete both directions for every mapping found for the
session in the native-map values. -/
def clearSession (st : ResolverState) (sessionName : String) : ResolverState :=
  (getSessionMappings st sessionName).foldl
    (fun acc m =>
      { nativeToStructured := serase acc.nativeToStructured m.nativeId
        structuredToNative := serase acc.structuredToNative m.structuredId })
    st

/-- A pane mapping that is live in both directions of the resolver: both maps
hold an entry for it carrying the registered native and structured ids. -/
def LiveMapping (st : ResolverState) (h id : String) : Prop :=
  ∃ m m', sget st.nativeToStructured h = some m ∧ m.nativeId = h ∧ m.structuredId = id ∧
    sget st.structuredToNative id = some m' ∧ m'.nativeId = h ∧ m'.structuredId = id

/-- Recover the session-name component of `buildStructuredId s w p`: strip the
digits-and-dot window/pane suffix from the right.  Used only in proofs, to
show that two structured ids built from different session names differ. -/
def sessionOfStructuredId (id : String) : String :=
  ⟨((((id.data.reverse.dropWhile (fun c => c ≠ '.')).tail).dropWhile
      (fun c => c ≠ ':')).tail).reverse⟩

/-- Erasing a list of keys in sequence. -/
def eraseKeys {α : Type} (m : List (String × α)) (ks : List String) :
    List (String × α) :=
  ks.foldl serase m

/-- Resolver states reachable from the empty resolver by `registerPane`
calls, the state space claim C2 quantifies over. -/
inductive Reachable : ResolverState → Prop
  | init : Reachable initResolver
  | register (st : ResolverState) (nativeId sessionName : String) (w p now : Nat) :
      Reachable st → Reachable (registerPane st nativeId sessionName w p now).1

/-- Structural well-formedness maintained by `registerPane`: every entry is
keyed by its own id, carries a structured id built from its own fields, and
keys are unique in each direction. -/
def ResolverWF (st : ResolverState) : Prop :=
  (∀ e ∈ st.nativeToStructured, (e.2).nativeId = e.1 ∧
      (e.2).structuredId =
        buildStructuredId (e.2).sessionName (e.2).windowIndex (e.2).paneIndex) ∧
  (∀ e ∈ st.structuredToNative, (e.2).structuredId = e.1 ∧
      (e.2).structuredId =
        buildStructuredId (e.2).sessionName (e.2).windowIndex (e.2).paneIndex) ∧
  (st.nativeToStructured.map (·.1)).Nodup ∧
  (st.structuredToNative.map (·.1)).Nodup

/-! ### FileWatcher (`src/utils/errors.ts`, class `FileWatcher`) -/

structure WatcherOptions where
  debounceMs : Nat
  maxFileSize : Nat
  excludePatterns : List String

def defaultWatcherOptions : WatcherOptions :=
  { debounceMs := 100, maxFileSize := 10 * 1024 * 1024
    excludePatterns := ["*.tmp", "*.swp"] }

/-- Watcher state: `filePositions` and the set of paths with a registered
callback; the chokidar watcher objects themselves live outside the model. -/
structure FileWatcherState where
  filePositions : List (String × Nat)
  callbacks : List String
deriving DecidableEq

def initFileWatcher : FileWatcherState := ⟨[], []⟩

/-- JS `String.prototype.trim` (ASCII whitespace, which is all the
repository's log data uses). -/
def jsTrim (s : String) : String :=
  ⟨((s.data.dropWhile jsWhitespace).reverse.dropWhile jsWhitespace).reverse⟩

/-- `watchFile`: start from end-of-file when the file already exceeds
`maxFileSize`, else from offset 0, and register the callback. -/
def watchFile (opts : WatcherOptions) (st : FileWatcherState) (filePath : String)
    (size : Nat) : FileWatcherState :=
  { filePositions :=
      if size > opts.maxFileSize then sset st.filePositions filePath size
      else sset st.filePositions filePath 0
    callbacks :=
      if st.callbacks.contains filePath then st.callbacks
      else filePath :: st.callbacks }

/-- `handleFileChange` on a change notification for `filePath` whose current
content is `file` (so `stats.size = file.length`, and the
`fileHandle.read` of `buffer.length` bytes at `currentPosition` is the
slice `[currentPosition, size)`).  Returns the new state and the content
passed to the callback, if any; whitespace-only content is skipped by the
`newContent.trim()` truthiness test. -/
def handleFileChange (st : FileWatcherState) (filePath : String)
    (file : List Char) : FileWatcherState × Option String :=
  if ¬ st.callbacks.contains filePath then (st, none)
  else
    let currentPosition := (sget st.filePositions filePath).getD 0
    let size := file.length
    if size < currentPosition then
      ({ st with filePositions := sset st.filePositions filePath 0 }, none)
    else if size = currentPosition then (st, none)
    else
      let newContent : String :=
        ⟨(file.drop currentPosition).take (size - currentPosition)⟩
      ({ st with filePositions := sset st.filePositions filePath size },
       if jsTrim newContent ≠ "" then some newContent else none)

/-- The offset transition of `handleFileChange`, isolated. -/
def stepOffset (pos size : Nat) : Nat :=
  if size < pos then 0 else if size = pos then pos else size

/-- The byte ranges `[offset, size)` read over a trace of observed sizes,
following `handleFileChange`'s branches. -/
def runTail (pos : Nat) : List Nat → List (Nat × Nat)
  | [] => []
  | size :: rest =>
    if size < pos then runTail 0 rest
    else if size = pos then runTail pos rest
    else (pos, size) :: runTail size rest

/-! ### CommandEscaper (`src/utils/errors.ts`, class `CommandEscaper`) -/

/-- JS `String.prototype.replace(/c/g, r)` for a one-character pattern: a
single pass replacing every occurrence of `c` by `r`; replacement text is
never reprocessed within the same pass. -/
def replaceAllChar (c : Char) (r : List Char) (s : List Char) : List Char :=
  s.foldr (fun a acc => (if a = c then r else [a]) ++ acc) []

def jsReplaceChar (s : String) (c : Char) (r : String) : String :=
  ⟨replaceAllChar c r.data s.data⟩

/-- `escapeForTmuxSendKeys`: the chain of eight global replacements in
source order — backslash, double quote, single quote, dollar, backtick,
semicolon, pipe, ampersand. -/
def escapeForTmuxSendKeys (command : String) : String :=
  jsReplaceChar
    (jsReplaceChar
      (jsReplaceChar
        (jsReplaceChar
          (jsReplaceChar
            (jsReplaceChar
              (jsReplaceChar
                (jsReplaceChar command '\\' "\\\\")
                '"' "\\\"")
              '\'' "'\"'\"'")
            '$' "\\$")
          '`' "\\`")
        ';' "\\;")
      '|' "\\|")
    '&' "\\&"

/-- Spec wording: "each backslash becomes a doubled backslash". -/
def escapeBackslash (s : String) : String :=
  ⟨s.data.foldr (fun a acc => (if a = '\\' then ['\\', '\\'] else [a]) ++ acc) []⟩

/-- Spec wording: "each double quote becomes backslash-double-quote". -/
def escapeDoubleQuote (s : String) : String :=
  ⟨s.data.foldr (fun a acc => (if a = '"' then ['\\', '"'] else [a]) ++ acc) []⟩

/-- Spec wording: "each single quote becomes the quote-break-requote
sequence". -/
def escapeSingleQuote (s : String) : String :=
  ⟨s.data.foldr
    (fun a acc => (if a = '\'' then ['\'', '"', '\'', '"', '\''] else [a]) ++ acc) []⟩

/-- Spec wording: "each dollar sign becomes backslash-dollar". -/
def escapeDollar (s : String) : String :=
  ⟨s.data.foldr (fun a acc => (if a = '$' then ['\\', '$'] else [a]) ++ acc) []⟩

/-- Spec wording: "each backtick becomes backslash-backtick". -/
def escapeBacktick (s : String) : String :=
  ⟨s.data.foldr (fun a acc => (if a = '`' then ['\\', '`'] else [a]) ++ acc) []⟩

/-- Spec wording: "each semicolon becomes backslash-semicolon". -/
def escapeSemicolon (s : String) : String :=
  ⟨s.data.foldr (fun a acc => (if a = ';' then ['\\', ';'] else [a]) ++ acc) []⟩

/-- Spec wording: "each pipe becomes backslash-pipe". -/
def escapePipe (s : String) : String :=
  ⟨s.data.foldr (fun a acc => (if a = '|' then ['\\', '|'] else [a]) ++ acc) []⟩

/-- Spec wording: "each ampersand becomes backslash-ampersand". -/
def escapeAmpersand (s : String) : String :=
  ⟨s.data.foldr (fun a acc => (if a = '&' then ['\\', '&'] else [a]) ++ acc) []⟩

/-- The `dangerousCommands` denylist, in source order. -/
def dangerousCommands : List String :=
  ["rm", "rmdir", "dd", "mkfs", "fdisk", "sudo", "su", "chmod", "chown",
   "kill", "killall", "pkill", "halt", "reboot", "shutdown", "format",
   "del", "deltree"]

/-- The `safeDevelopmentCommands` allowlist, in source order. -/
def safeDevelopmentCommands : List String :=
  ["node", "npm", "yarn", "pnpm", "python", "python3", "pip", "cargo",
   "rustc", "go", "java", "javac", "tsc", "tsx", "jest", "vitest", "mocha",
   "pytest", "git", "docker", "docker-compose", "make", "cmake", "webpack",
   "vite", "rollup", "esbuild", "ls", "cat", "echo", "pwd", "cd", "mkdir",
   "touch", "cp", "mv", "grep", "find", "which", "whereis", "ps", "top",
   "htop", "curl", "wget", "ping", "netstat", "lsof"]

def stripPrefixCI : List Char → List Char → Option (List Char)
  | [], s => some s
  | _ :: _, [] => none
  | p :: ps, c :: cs => if c.toLower = p.toLower then stripPrefixCI ps cs else none

def stripPrefixExact : List Char → List Char → Option (List Char)
  | [], s => some s
  | _ :: _, [] => none
  | p :: ps, c :: cs => if c = p then stripPrefixExact ps cs else none

/-- All suffixes, in order of increasing start position: an unanchored JS
regex test scans these left to right. -/
def suffixes : List Char → List (List Char)
  | [] => [[]]
  | c :: rest => (c :: rest) :: suffixes rest

def containsSubstrCI (pat : String) (s : List Char) : Bool :=
  (suffixes s).any fun suf => (stripPrefixCI pat.data suf).isSome

def anyAltPrefixCI (alts : List String) (s : List Char) : Bool :=
  alts.any fun a => (stripPrefixCI a.data s).isSome

/-- The argument-injection heuristics `/;\s*(rm|del|format)/i`,
`/\|\s*(rm|del|format)/i` and `/&&\s*(rm|del|format)/i`. -/
def testChainPattern (trigger : String) (s : List Char) : Bool :=
  (suffixes s).any fun suf =>
    match stripPrefixExact trigger.data suf with
    | some rest => anyAltPrefixCI ["rm", "del", "format"] (rest.dropWhile jsWhitespace)
    | none => false

/-- The heuristic `/\$\([^)]*rm[^)]*\)/i`: a `$(` group, free of `)`,
containing `rm`, and closed. -/
def testSubshellPattern (s : List Char) : Bool :=
  (suffixes s).any fun suf =>
    match suf with
    | '$' :: '(' :: rest =>
      containsSubstrCI "rm" (rest.takeWhile (fun c => c ≠ ')')) &&
        !(rest.dropWhile (fun c => c ≠ ')')).isEmpty
    | _ => false

/-- The heuristic `` /`[^`]*rm[^`]*`/i ``. -/
def testBacktickPattern (s : List Char) : Bool :=
  (suffixes s).any fun suf =>
    match suf with
    | '`' :: rest =>
      containsSubstrCI "rm" (rest.takeWhile (fun c => c ≠ '`')) &&
        !(rest.dropWhile (fun c => c ≠ '`')).isEmpty
    | _ => false

/-- `command.split('/').pop() || command` — the base command the denylist
and allowlist are checked against. -/
def baseCommandOf (command : String) : String :=
  let popped := (splitChar '/' command.data).getLastD []
  if popped.isEmpty then command else ⟨popped⟩

/-- `validateCommand`: throw on a denylisted base command (unless
`allowDangerous`), throw on a suspicious argument pattern, otherwise
succeed; the returned flag records whether the non-allowlisted warning was
logged. -/
def validateCommand (allowDangerous : Bool) (command : String)
    (args : List String) : Except String Bool :=
  let baseCommand := baseCommandOf command
  if dangerousCommands.contains baseCommand && !allowDangerous then
    Except.error ("Dangerous command blocked: " ++ baseCommand ++
      ". Use allowDangerous option to override.")
  else
    let allArgs := String.intercalate " " args
    if testChainPattern ";" allArgs.data || testChainPattern "|" allArgs.data ||
        testChainPattern "&&" allArgs.data || testSubshellPattern allArgs.data ||
        testBacktickPattern allArgs.data then
      Except.error ("Suspicious command pattern detected in arguments: " ++ allArgs)
    else
      Except.ok (!(safeDevelopmentCommands.contains baseCommand) &&
        !(baseCommand == "tmux"))

/-! ### LogAnalyzer (`src/core/log-analyzer.ts`) -/

inductive DiagKind where
  | error
  | warning
  | info
deriving DecidableEq

/-- `ErrorEntry` of `src/types/index.ts`; `line`/`column` conflate JS `NaN`
with `undefined` as `none` (never distinguished by the analyzer), and
`timestamp` is the `Date.now()` value. -/
structure ErrorEntry where
  id : String
  paneId : String
  file : Option String
  line : Option Int
  column : Option Int
  message : String
  type : DiagKind
  language : Option String
  timestamp : Nat
deriving DecidableEq

structure CaptureGroups where
  file : Option Nat := none
  line : Option Nat := none
  column : Option Nat := none
  message : Nat
deriving DecidableEq

/-- `ErrorPattern` of `src/types/index.ts`; the compiled regex is embedded
as its matcher `exec`, returning the JS match array (index 0 the whole
match, then the numbered capture groups). -/
structure ErrorPattern where
  name : String
  exec : String → Option (List (Option String))
  type : DiagKind
  language : Option String := none
  captureGroups : CaptureGroups

/-! Backtracking building blocks mirroring the JS regex engine: lazy
quantifiers try shortest first, greedy ones longest first, alternatives in
written order, each combined with full backtracking into what follows. -/

/-- All splits `(take i, drop i)` in order of increasing `i`. -/
def splitsInc (s : List Char) : List (List Char × List Char) :=
  (List.range (s.length + 1)).map fun i => (s.take i, s.drop i)

/-- `(.+?)` before a continuation: shortest nonempty prefix that lets the
continuation succeed. -/
def lazyPlus {α : Type} (s : List Char)
    (k : List Char → List Char → Option α) : Option α :=
  (splitsInc s).findSome? fun pr => if pr.1.isEmpty then none else k pr.1 pr.2

/-- `(.*?)` (with `/s`): shortest prefix, possibly empty. -/
def lazyStar {α : Type} (s : List Char)
    (k : List Char → List Char → Option α) : Option α :=
  (splitsInc s).findSome? fun pr => k pr.1 pr.2

/-- `(.+)` (with `/s`): longest nonempty prefix that lets the continuation
succeed. -/
def greedyPlus {α : Type} (s : List Char)
    (k : List Char → List Char → Option α) : Option α :=
  (splitsInc s).reverse.findSome? fun pr =>
    if pr.1.isEmpty then none else k pr.1 pr.2

/-- `\s*`: longest whitespace run first, backtracking to shorter ones. -/
def wsStar {α : Type} (s : List Char) (k : List Char → Option α) : Option α :=
  ((List.range ((s.takeWhile jsWhitespace).length + 1)).reverse).findSome?
    fun i => k (s.drop i)

/-- `\d+`: maximal nonempty digit run (what follows in every source pattern
is a non-digit, so no backtracking is needed). -/
def digits1 (s : List Char) : Option (List Char × List Char) :=
  let ds := s.takeWhile Char.isDigit
  if ds.isEmpty then none else some (ds, s.dropWhile Char.isDigit)

/-- An alternation of literals under `/i`, tried in written order, passing
the matched original-case text and the rest to the continuation. -/
def altCI {α : Type} (alts : List String) (s : List Char)
    (k : List Char → List Char → Option α) : Option α :=
  alts.findSome? fun a =>
    match stripPrefixCI a.data s with
    | some rest => k (s.take a.data.length) rest
    | none => none

/-- `/^(.+?)\((\d+),(\d+)\):\s*(error|warning)\s*TS\d+:\s*(.+)$/i`. -/
def tsExec (line : String) : Option (List (Option String)) :=
  lazyPlus line.data fun file rest =>
    match rest with
    | '(' :: r1 =>
      (digits1 r1).bind fun dr =>
        match dr.2 with
        | ',' :: r3 =>
          (digits1 r3).bind fun dc =>
            match dc.2 with
            | ')' :: ':' :: r5 =>
              wsStar r5 fun r6 =>
                altCI ["error", "warning"] r6 fun sev r7 =>
                  wsStar r7 fun r8 =>
                    match stripPrefixCI ['T', 'S'] r8 with
                    | some r9 =>
                      (digits1 r9).bind fun dn =>
                        match dn.2 with
                        | ':' :: r11 =>
                          wsStar r11 fun r12 =>
                            if r12.isEmpty then none
                            else some [some line, some ⟨file⟩, some ⟨dr.1⟩,
                              some ⟨dc.1⟩, some ⟨sev⟩, some ⟨r12⟩]
                        | _ => none
                    | none => none
            | _ => none
        | _ => none
    | _ => none

/-- `/^(.+?):(\d+):(\d+):\s*(Error|SyntaxError|TypeError|ReferenceError):\s*(.+)$/i`. -/
def jsErrExec (line : String) : Option (List (Option String)) :=
  lazyPlus line.data fun file rest =>
    match rest with
    | ':' :: r1 =>
      (digits1 r1).bind fun dl =>
        match dl.2 with
        | ':' :: r3 =>
          (digits1 r3).bind fun dc =>
            match dc.2 with
            | ':' :: r5 =>
              wsStar r5 fun r6 =>
                altCI ["Error", "SyntaxError", "TypeError", "ReferenceError"] r6
                  fun kind r7 =>
                    match r7 with
                    | ':' :: r8 =>
                      wsStar r8 fun r9 =>
                        if r9.isEmpty then none
                        else some [some line, some ⟨file⟩, some ⟨dl.1⟩,
                          some ⟨dc.1⟩, some ⟨kind⟩, some ⟨r9⟩]
                    | _ => none
            | _ => none
        | _ => none
    | _ => none

/-- `/File "(.+?)", line (\d+).*?\n(.+?Error): (.+)/s`, unanchored. -/
def pyExec (line : String) : Option (List (Option String)) :=
  (suffixes line.data).findSome? fun start =>
    match stripPrefixExact "File \"".data start with
    | some r1 =>
      lazyPlus r1 fun file r2 =>
        match stripPrefixExact "\", line ".data r2 with
        | some r3 =>
          (digits1 r3).bind fun dl =>
            lazyStar dl.2 fun _gap r5 =>
              match r5 with
              | '\n' :: r6 =>
                lazyPlus r6 fun pre r7 =>
                  match stripPrefixExact "Error: ".data r7 with
                  | some r8 =>
                    if r8.isEmpty then none
                    else some [some ⟨start⟩, some ⟨file⟩, some ⟨dl.1⟩,
                      some ⟨pre ++ "Error".data⟩, some ⟨r8⟩]
                  | none => none
              | _ => none
        | _ => none
    | none => none

/-- `/^error.*?:\s*(.+)\n.*?--> (.+?):(\d+):(\d+)/s`. -/
def rustExec (line : String) : Option (List (Option String)) :=
  match stripPrefixExact "error".data line.data with
  | some r1 =>
    lazyStar r1 fun _gap r2 =>
      match r2 with
      | ':' :: r3 =>
        wsStar r3 fun r4 =>
          greedyPlus r4 fun msg r5 =>
            match r5 with
            | '\n' :: r6 =>
              lazyStar r6 fun _gap2 r7 =>
                match stripPrefixExact "--> ".data r7 with
                | some r8 =>
                  lazyPlus r8 fun file r9 =>
                    match r9 with
                    | ':' :: r10 =>
                      (digits1 r10).bind fun dl =>
                        match dl.2 with
                        | ':' :: r12 =>
                          (digits1 r12).bind fun dc =>
                            some [some ⟨line.data.take
                                (line.data.length - dc.2.length)⟩,
                              some ⟨msg⟩, some ⟨file⟩, some ⟨dl.1⟩, some ⟨dc.1⟩]
                        | _ => none
                    | _ => none
                | none => none
            | _ => none
      | _ => none
  | none => none

/-- `/^(.+?):(\d+):(\d+):\s*(.+)$/`. -/
def goExec (line : String) : Option (List (Option String)) :=
  lazyPlus line.data fun file rest =>
    match rest with
    | ':' :: r1 =>
      (digits1 r1).bind fun dl =>
        match dl.2 with
        | ':' :: r3 =>
          (digits1 r3).bind fun dc =>
            match dc.2 with
            | ':' :: r5 =>
              wsStar r5 fun r6 =>
                if r6.isEmpty then none
                else some [some line, some ⟨file⟩, some ⟨dl.1⟩, some ⟨dc.1⟩,
                  some ⟨r6⟩]
            | _ => none
        | _ => none
    | _ => none

def generalErrorVocab : List String :=
  ["ERROR", "FAIL", "Exception", "Error:", "Failed"]

def generalWarningVocab : List String :=
  ["WARN", "Warning", "Deprecated", "Notice"]

/-- `/(ERROR|FAIL|Exception|Error:|Failed)/i`, unanchored. -/
def generalErrorExec (line : String) : Option (List (Option String)) :=
  (suffixes line.data).findSome? fun start =>
    altCI generalErrorVocab start fun m _rest => some [some ⟨m⟩, some ⟨m⟩]

/-- `/(WARN|Warning|Deprecated|Notice)/i`, unanchored. -/
def generalWarningExec (line : String) : Option (List (Option String)) :=
  (suffixes line.data).findSome? fun start =>
    altCI generalWarningVocab start fun m _rest => some [some ⟨m⟩, some ⟨m⟩]

/-- `/npm ERR!\s*(.+)/i`, unanchored. -/
def npmErrExec (line : String) : Option (List (Option String)) :=
  (suffixes line.data).findSome? fun start =>
    match stripPrefixCI "npm ERR!".data start with
    | some r1 =>
      wsStar r1 fun r2 =>
        if r2.isEmpty then none else some [some ⟨start⟩, some ⟨r2⟩]
    | none => none

/-- `/docker: Error response from daemon: (.+)/i`, unanchored. -/
def dockerErrExec (line : String) : Option (List (Option String)) :=
  (suffixes line.data).findSome? fun start =>
    match stripPrefixCI "docker: Error response from daemon: ".data start with
    | some r1 => if r1.isEmpty then none else some [some ⟨start⟩, some ⟨r1⟩]
    | none => none

def typescriptPattern : ErrorPattern :=
  { name := "typescript", exec := tsExec, type := .error
    language := some "typescript"
    captureGroups := { file := some 1, line := some 2, column := some 3, message := 5 } }

def javascriptPattern : ErrorPattern :=
  { name := "javascript", exec := jsErrExec, type := .error
    language := some "javascript"
    captureGroups := { file := some 1, line := some 2, column := some 3, message := 5 } }

def pythonPattern : ErrorPattern :=
  { name := "python", exec := pyExec, type := .error
    language := some "python"
    captureGroups := { file := some 1, line := some 2, message := 4 } }

def rustPattern : ErrorPattern :=
  { name := "rust", exec := rustExec, type := .error
    language := some "rust"
    captureGroups := { file := some 2, line := some 3, column := some 4, message := 1 } }

def goPattern : ErrorPattern :=
  { name := "go", exec := goExec, type := .error
    language := some "go"
    captureGroups := { file := some 1, line := some 2, column := some 3, message := 4 } }

def generalErrorPattern : ErrorPattern :=
  { name := "general_error", exec := generalErrorExec, type := .error
    captureGroups := { message := 0 } }

def generalWarningPattern : ErrorPattern :=
  { name := "general_warning", exec := generalWarningExec, type := .warning
    captureGroups := { message := 0 } }

def npmErrorPattern : ErrorPattern :=
  { name := "npm_error", exec := npmErrExec, type := .error
    language := some "npm"
    captureGroups := { message := 1 } }

def dockerErrorPattern : ErrorPattern :=
  { name := "docker_error", exec := dockerErrExec, type := .error
    language := some "docker"
    captureGroups := { message := 1 } }

/-- The seeded `errorPatterns` array, in source order. -/
def errorPatterns : List ErrorPattern :=
  [typescriptPattern, javascriptPattern, pythonPattern, rustPattern, goPattern,
   generalErrorPattern, generalWarningPattern, npmErrorPattern, dockerErrorPattern]

/-- `extractPaneIdFromPath`: basename of the path, stripped of a `.log`
suffix by `/^(.+)\.log$/`. -/
def extractPaneIdFromPath (filePath : String) : String :=
  let basename : List Char := (splitChar '/' filePath.data).getLastD []
  if 4 < basename.length ∧ basename.drop (basename.length - 4) = ".log".data then
    ⟨basename.take (basename.length - 4)⟩
  else ⟨basename⟩

/-- `matchErrorPatterns`: first pattern whose regex matches wins; roles are
extracted from the configured capture-group indices, the message falling
back to the whole line when its group is missing or empty. -/
def matchErrorPatterns (patterns : List ErrorPattern) (line filePath : String)
    (lineNumber now : Nat) : Option ErrorEntry :=
  patterns.findSome? fun pattern =>
    match pattern.exec line with
    | some m =>
      let groups := pattern.captureGroups
      some
        { id := filePath ++ ":" ++ Nat.repr lineNumber ++ ":" ++ Nat.repr now
          paneId := extractPaneIdFromPath filePath
          file := groups.file.bind fun g => m.getD g none
          line := (groups.line.bind fun g => m.getD g none).bind jsParseInt
          column := (groups.column.bind fun g => m.getD g none).bind jsParseInt
          message :=
            match m.getD groups.message none with
            | some msg => if msg.isEmpty then line else msg
            | none => line
          type := pattern.type
          language := pattern.language
          timestamp := now }
    | none => none

/-! ### McpIntegrator (`src/core/mcp-integrator.ts`) -/

/-- Trigger-debounce state: `lastTriggers` maps a trigger key to the
`Date.now()` (as an integer) at which it last fired; `activeAnalyses` is
the in-flight set.  Timestamps are `Int` as JS number arithmetic is. -/
structure IntegratorState where
  lastTriggers : List (String × Int)
  activeAnalyses : List String
deriving DecidableEq

def initIntegrator : IntegratorState := ⟨[], []⟩

/-- 5-minute cooldown of `triggerSequentialAnalysis`. -/
def sequentialDebounceMs : Int := 5 * 60 * 1000

/-- 10-minute cooldown of `triggerDocumentationLookup`. -/
def context7DebounceMs : Int := 10 * 60 * 1000

/-- `triggerSequentialAnalysis` for pane `paneId` at time `now`; the
returned flag is whether `trigger_sequential` was emitted.  In the source
the key is added to `activeAnalyses` and removed again in the `finally`
block before the awaited call returns, so across a call the set is
unchanged; `lastTriggers` is stamped before emitting. -/
def triggerSequentialAnalysis (st : IntegratorState) (paneId : String)
    (now : Int) : IntegratorState × Bool :=
  let key := "sequential_" ++ paneId
  if st.activeAnalyses.contains key then (st, false)
  else
    match sget st.lastTriggers key with
    | some lastTrigger =>
      if now - lastTrigger < sequentialDebounceMs then (st, false)
      else ({ st with lastTriggers := sset st.lastTriggers key now }, true)
    | none => ({ st with lastTriggers := sset st.lastTriggers key now }, true)

/-- `triggerDocumentationLookup` for `(library, type)` at time `now`; the
returned flag is whether `trigger_context7` was emitted. -/
def triggerDocumentationLookup (st : IntegratorState) (library ltype : String)
    (now : Int) : IntegratorState × Bool :=
  let key := "context7_" ++ library ++ "_" ++ ltype
  match sget st.lastTriggers key with
  | some lastTrigger =>
    if now - lastTrigger < context7DebounceMs then (st, false)
    else ({ st with lastTriggers := sset st.lastTriggers key now }, true)
  | none => ({ st with lastTriggers := sset st.lastTriggers key now }, true)

/-- A burst of sequential-analysis events: final state and emission count. -/
def runSequential (st : IntegratorState) (paneId : String) (times : List Int) :
    IntegratorState × Nat :=
  times.foldl
    (fun acc now =>
      let r := triggerSequentialAnalysis acc.1 paneId now
      (r.1, acc.2 + (if r.2 then 1 else 0)))
    (st, 0)

/-! ### ErrorWatcher (`src/core/error-watcher.ts`) -/

/-- The fields of `TmuxPane` that `startWatching` consumes. -/
structure TmuxPane where
  id : String
  command : String
  logFile : Option String
deriving DecidableEq

structure ErrorWatcherState where
  errorCache : List (String × List ErrorEntry)
  watchedPanes : List String
deriving DecidableEq

def initErrorWatcher : ErrorWatcherState := ⟨[], []⟩

/-- `startWatching` (state effect): warn-and-return when already watched,
else record the pane as watched.  Tail subscription and build-watcher
spawning are external effects; neither touches `errorCache`. -/
def startWatching (st : ErrorWatcherState) (pane : TmuxPane) : ErrorWatcherState :=
  if st.watchedPanes.contains pane.id then st
  else { st with watchedPanes := pane.id :: st.watchedPanes }

/-- `addError`: append to the pane's cache, keeping only the last 100. -/
def addError (st : ErrorWatcherState) (e : ErrorEntry) : ErrorWatcherState :=
  let errors := (sget st.errorCache e.paneId).getD [] ++ [e]
  let errors := if 100 < errors.length then errors.drop (errors.length - 100) else errors
  { st with errorCache := sset st.errorCache e.paneId errors }

/-- `getErrors`: `errorCache.get(paneId) || []`. -/
def getErrors (st : ErrorWatcherState) (paneId : String) : List ErrorEntry :=
  (sget st.errorCache paneId).getD []

/-- `getErrorSummary`: `(total, errors, warnings)` over one pane's cache
(or all panes when no pane id is given). -/
def getErrorSummary (st : ErrorWatcherState) (paneId : Option String) :
    Nat × Nat × Nat :=
  let cacheToAnalyze :=
    match paneId with
    | some p => [(p, (sget st.errorCache p).getD [])]
    | none => st.errorCache
  cacheToAnalyze.foldl
    (fun acc kv =>
      kv.2.foldl
        (fun acc2 err =>
          (acc2.1 + 1,
           (if err.type = DiagKind.error then acc2.2.1 + 1 else acc2.2.1),
           (if err.type = DiagKind.warning then acc2.2.2 + 1 else acc2.2.2)))
        acc)
    (0, 0, 0)

/-! ### Lemmas about the map model -/

theorem sget_sset_self {α : Type} (m : List (String × α)) (k : String) (v : α) :
    sget (sset m k v) k = some v := by
  induction m with
  | nil => simp [sset, sget]
  | cons hd tl ih =>
    obtain ⟨k', v'⟩ := hd
    by_cases hk : k' = k <;> simp [sset, hk, sget, ih]

theorem sget_sset_ne {α : Type} (m : List (String × α)) (k k' : String) (v : α)
    (h : k' ≠ k) : sget (sset m k v) k' = sget m k' := by
  have hkk : ¬ (k = k') := fun e => h e.symm
  induction m with
  | nil => simp [sset, sget, hkk]
  | cons hd tl ih =>
    obtain ⟨k0, v0⟩ := hd
    by_cases hk : k0 = k
    · subst hk
      simp [sset, sget, hkk]
    · simp [sset, hk, sget, ih]

theorem sget_serase_self {α : Type} (m : List (String × α)) (k : String) :
    sget (serase m k) k = none := by
  induction m with
  | nil => simp [serase, sget]
  | cons hd tl ih =>
    obtain ⟨k', v'⟩ := hd
    by_cases hk : k' = k <;> simp [serase, hk, sget, ih]

theorem sget_serase_ne {α : Type} (m : List (String × α)) (k k' : String)
    (h : k' ≠ k) : sget (serase m k) k' = sget m k' := by
  have hkk : ¬ (k = k') := fun e => h e.symm
  induction m with
  | nil => simp [serase]
  | cons hd tl ih =>
    obtain ⟨k0, v0⟩ := hd
    by_cases hk : k0 = k
    · subst hk
      simp [serase, sget, hkk, ih]
    · simp [serase, hk, sget, ih]

theorem sget_mem {α : Type} {m : List (String × α)} {k : String} {v : α}
    (h : sget m k = some v) : (k, v) ∈ m := by
  induction m with
  | nil => simp [sget] at h
  | cons hd tl ih =>
    obtain ⟨k', v'⟩ := hd
    by_cases hk : k' = k
    · subst hk
      simp [sget] at h
      simp [h]
    · simp [sget, hk] at h
      exact List.mem_cons_of_mem _ (ih h)

theorem mem_sset {α : Type} {m : List (String × α)} {k k' : String} {v v' : α}
    (h : (k', v') ∈ sset m k v) : (k', v') ∈ m ∨ (k' = k ∧ v' = v) := by
  induction m with
  | nil =>
    simp [sset] at h
    exact Or.inr h
  | cons hd tl ih =>
    obtain ⟨k0, v0⟩ := hd
    by_cases hk : k0 = k
    · subst hk
      simp only [sset, if_pos rfl] at h
      rcases List.mem_cons.mp h with e | hmem
      · rcases Prod.mk.injEq .. ▸ e with ⟨e1, e2⟩
        exact Or.inr ⟨e1, e2⟩
      · exact Or.inl (List.mem_cons_of_mem _ hmem)
    · simp only [sset, if_neg hk] at h
      rcases List.mem_cons.mp h with e | hmem
      · exact Or.inl (List.mem_cons.mpr (Or.inl e))
      · rcases ih hmem with h1 | h1
        · exact Or.inl (List.mem_cons_of_mem _ h1)
        · exact Or.inr h1

theorem mem_serase {α : Type} {m : List (String × α)} {k k' : String} {v' : α}
    (h : (k', v') ∈ serase m k) : (k', v') ∈ m := by
  induction m with
  | nil => simp [serase] at h
  | cons hd tl ih =>
    obtain ⟨k0, v0⟩ := hd
    by_cases hk : k0 = k
    · subst hk
      simp only [serase, if_pos rfl] at h
      exact List.mem_cons_of_mem _ (ih h)
    · simp only [serase, if_neg hk] at h
      rcases List.mem_cons.mp h with e | hmem
      · exact List.mem_cons.mpr (Or.inl e)
      · exact List.mem_cons_of_mem _ (ih hmem)

theorem keys_sset {α : Type} (m : List (String × α)) (k : String) (v : α) :
    (sset m k v).map (·.1) =
      if k ∈ m.map (·.1) then m.map (·.1) else m.map (·.1) ++ [k] := by
  induction m with
  | nil => simp [sset]
  | cons hd tl ih =>
    obtain ⟨k0, v0⟩ := hd
    by_cases hk : k0 = k
    · subst hk
      simp [sset]
    · have hk' : ¬ (k = k0) := fun e => hk e.symm
      by_cases hmem : k ∈ tl.map (·.1) <;>
        simp [sset, hk, hk', ih, hmem]

theorem nodup_keys_sset {α : Type} {m : List (String × α)} (k : String) (v : α)
    (h : (m.map (·.1)).Nodup) : ((sset m k v).map (·.1)).Nodup := by
  rw [keys_sset]
  split
  · exact h
  · next hmem =>
    refine List.nodup_append.mpr ⟨h, List.nodup_singleton _, ?_⟩
    intro a ha hb
    rw [List.mem_singleton] at hb
    subst hb
    exact hmem ha

theorem keys_serase_sublist {α : Type} (m : List (String × α)) (k : String) :
    ((serase m k).map (·.1)).Sublist (m.map (·.1)) := by
  induction m with
  | nil => simp [serase]
  | cons hd tl ih =>
    obtain ⟨k0, v0⟩ := hd
    by_cases hk : k0 = k
    · subst hk
      simp only [serase, if_pos rfl, List.map_cons]
      exact ih.trans (List.sublist_cons_self _ _)
    · simp only [serase, if_neg hk, List.map_cons]
      exact ih.cons₂ _

theorem entry_eq_of_nodup {α : Type} {l : List (String × α)}
    (hnd : (l.map (·.1)).Nodup) {k : String} {v v' : α}
    (h1 : (k, v) ∈ l) (h2 : (k, v') ∈ l) : v = v' := by
  induction l with
  | nil => simp at h1
  | cons hd tl ih =>
    obtain ⟨k0, v0⟩ := hd
    simp only [List.map_cons, List.nodup_cons] at hnd
    rcases List.mem_cons.mp h1 with e1 | m1 <;> rcases List.mem_cons.mp h2 with e2 | m2
    · rcases Prod.mk.injEq .. ▸ e1 with ⟨_, ev1⟩
      rcases Prod.mk.injEq .. ▸ e2 with ⟨_, ev2⟩
      exact ev1.trans ev2.symm
    · rcases Prod.mk.injEq .. ▸ e1 with ⟨ek, _⟩
      exact absurd (List.mem_map.mpr ⟨(k, v'), m2, ek⟩) hnd.1
    · rcases Prod.mk.injEq .. ▸ e2 with ⟨ek, _⟩
      exact absurd (List.mem_map.mpr ⟨(k, v), m1, ek⟩) hnd.1
    · exact ih hnd.2 m1 m2

theorem sget_eraseKeys {α : Type} (ks : List String) (m : List (String × α))
    (k : String) :
    sget (eraseKeys m ks) k = if k ∈ ks then none else sget m k := by
  induction ks generalizing m with
  | nil => simp [eraseKeys]
  | cons k0 ks ih =>
    simp only [eraseKeys, List.foldl_cons] at ih ⊢
    rw [ih (serase m k0)]
    by_cases hk : k = k0
    · subst hk
      by_cases hmem : k ∈ ks <;> simp [hmem, sget_serase_self]
    · by_cases hmem : k ∈ ks <;> simp [hmem, hk, sget_serase_ne _ _ _ hk]

theorem clearSession_eq (st : ResolverState) (s : String) :
    clearSession st s =
      { nativeToStructured := eraseKeys st.nativeToStructured
          ((getSessionMappings st s).map (·.nativeId))
        structuredToNative := eraseKeys st.structuredToNative
          ((getSessionMappings st s).map (·.structuredId)) } := by
  unfold clearSession eraseKeys
  generalize getSessionMappings st s = ms
  induction ms generalizing st with
  | nil => simp
  | cons m ms ih =>
    simp only [List.foldl_cons, List.map_cons]
    exact ih { nativeToStructured := serase st.nativeToStructured m.nativeId
               structuredToNative := serase st.structuredToNative m.structuredId }

theorem mem_getSessionMappings {st : ResolverState} {s : String} {mp : PaneMapping}
    (h : mp ∈ getSessionMappings st s) :
    mp.sessionName = s ∧ ∃ k0, (k0, mp) ∈ st.nativeToStructured := by
  unfold getSessionMappings svalues at h
  have h' := List.mem_filter.mp h
  refine ⟨by simpa using h'.2, ?_⟩
  obtain ⟨⟨k0, v0⟩, he, hev⟩ := List.mem_map.mp h'.1
  dsimp at hev
  subst hev
  exact ⟨k0, he⟩

/-! ### The session component of a structured id is recoverable -/

theorem digitChar_not_sep (n : Nat) :
    Nat.digitChar n ≠ ':' ∧ Nat.digitChar n ≠ '.' := by
  by_cases h : n < 16
  · interval_cases n <;> exact ⟨by decide, by decide⟩
  · have hne : ∀ m, m < 16 → n ≠ m := fun m hm e => h (e ▸ hm)
    have h0 : Nat.digitChar n = '*' := by
      unfold Nat.digitChar
      rw [if_neg (hne 0 (by omega)), if_neg (hne 1 (by omega)),
          if_neg (hne 2 (by omega)), if_neg (hne 3 (by omega)),
          if_neg (hne 4 (by omega)), if_neg (hne 5 (by omega)),
          if_neg (hne 6 (by omega)), if_neg (hne 7 (by omega)),
          if_neg (hne 8 (by omega)), if_neg (hne 9 (by omega)),
          if_neg (hne 10 (by omega)), if_neg (hne 11 (by omega)),
          if_neg (hne 12 (by omega)), if_neg (hne 13 (by omega)),
          if_neg (hne 14 (by omega)), if_neg (hne 15 (by omega))]
    rw [h0]
    exact ⟨by decide, by decide⟩

theorem toDigitsCore_not_sep (fuel : Nat) : ∀ (n : Nat) (ds : List Char),
    (∀ c ∈ ds, c ≠ ':' ∧ c ≠ '.') →
    ∀ c ∈ Nat.toDigitsCore 10 fuel n ds, c ≠ ':' ∧ c ≠ '.' := by
  induction fuel with
  | zero =>
    intro n ds hds c hc
    exact hds c (by simpa [Nat.toDigitsCore] using hc)
  | succ fuel ih =>
    intro n ds hds c hc
    simp only [Nat.toDigitsCore] at hc
    split at hc
    · rcases List.mem_cons.mp hc with h | h
      · subst h
        exact digitChar_not_sep _
      · exact hds c h
    · refine ih (n / 10) _ ?_ c hc
      intro c' hc'
      rcases List.mem_cons.mp hc' with h | h
      · subst h
        exact digitChar_not_sep _
      · exact hds c' h

theorem repr_not_sep (n : Nat) : ∀ c ∈ (Nat.repr n).data, c ≠ ':' ∧ c ≠ '.' := by
  intro c hc
  have hd : (Nat.repr n).data = Nat.toDigits 10 n := rfl
  rw [hd, Nat.toDigits] at hc
  exact toDigitsCore_not_sep (n + 1) n [] (by simp) c hc

theorem dropWhile_append_all {α : Type} (p : α → Bool) (l₁ l₂ : List α)
    (h : ∀ c ∈ l₁, p c = true) :
    (l₁ ++ l₂).dropWhile p = l₂.dropWhile p := by
  induction l₁ with
  | nil => simp
  | cons a l ih =>
    simp only [List.cons_append, List.dropWhile_cons]
    rw [if_pos (h a (by simp))]
    exact ih (fun c hc => h c (by simp [hc]))

theorem sessionOf_build (s : String) (w p : Nat) :
    sessionOfStructuredId (buildStructuredId s w p) = s := by
  unfold sessionOfStructuredId buildStructuredId
  have hdata : (s ++ ":" ++ Nat.repr w ++ "." ++ Nat.repr p).data =
      s.data ++ ':' :: ((Nat.repr w).data ++ '.' :: (Nat.repr p).data) := by
    simp [String.data_append]
  rw [hdata]
  have hrev : (s.data ++ ':' :: ((Nat.repr w).data ++ '.' :: (Nat.repr p).data)).reverse =
      (Nat.repr p).data.reverse ++
        '.' :: ((Nat.repr w).data.reverse ++ ':' :: s.data.reverse) := by
    simp
  rw [hrev]
  rw [dropWhile_append_all _ _ _ (fun c hc => by
    simpa using (repr_not_sep p c (List.mem_reverse.mp hc)).2)]
  rw [List.dropWhile_cons, if_neg (by simp)]
  simp only [List.tail_cons]
  rw [dropWhile_append_all _ _ _ (fun c hc => by
    simpa using (repr_not_sep w c (List.mem_reverse.mp hc)).1)]
  rw [List.dropWhile_cons, if_neg (by simp)]
  simp

theorem build_session_inj {s1 s2 : String} {w1 p1 w2 p2 : Nat}
    (h : buildStructuredId s1 w1 p1 = buildStructuredId s2 w2 p2) : s1 = s2 := by
  have h2 := congrArg sessionOfStructuredId h
  rwa [sessionOf_build, sessionOf_build] at h2

/-! ### Well-formedness of reachable resolver states -/

theorem resolverWF_registerPane (st : ResolverState) (nid s : String) (w p now : Nat)
    (hwf : ResolverWF st) : ResolverWF (registerPane st nid s w p now).1 := by
  have hstep : ∀ st' : ResolverState, ResolverWF st' →
      ResolverWF
        { nativeToStructured := sset st'.nativeToStructured nid
            { nativeId := nid, structuredId := buildStructuredId s w p, sessionName := s,
              windowIndex := w, paneIndex := p, lastSeen := now }
          structuredToNative := sset st'.structuredToNative (buildStructuredId s w p)
            { nativeId := nid, structuredId := buildStructuredId s w p, sessionName := s,
              windowIndex := w, paneIndex := p, lastSeen := now } } := by
    rintro st' ⟨h1, h2, h3, h4⟩
    refine ⟨?_, ?_, ?_, ?_⟩
    · rintro ⟨k, v⟩ hkv
      rcases mem_sset hkv with hmem | ⟨hk, hv⟩
      · exact h1 _ hmem
      · subst hk
        subst hv
        exact ⟨rfl, rfl⟩
    · rintro ⟨k, v⟩ hkv
      rcases mem_sset hkv with hmem | ⟨hk, hv⟩
      · exact h2 _ hmem
      · subst hk
        subst hv
        exact ⟨rfl, rfl⟩
    · exact nodup_keys_sset _ _ h3
    · exact nodup_keys_sset _ _ h4
  have herase : ∀ k, ResolverWF st →
      ResolverWF { st with nativeToStructured := serase st.nativeToStructured k } := by
    rintro k ⟨h1, h2, h3, h4⟩
    exact ⟨fun e he => h1 e (mem_serase he), h2,
      h3.sublist (keys_serase_sublist _ _), h4⟩
  unfold registerPane
  dsimp only
  cases hsg : sget st.structuredToNative (buildStructuredId s w p) with
  | none => exact hstep st hwf
  | some existing =>
    dsimp only
    by_cases hne : existing.nativeId = nid
    · rw [if_neg (by simp [hne])]
      exact hstep st hwf
    · rw [if_pos hne]
      exact hstep _ (herase existing.nativeId hwf)

theorem reachable_wf {st : ResolverState} (h : Reachable st) : ResolverWF st := by
  induction h with
  | init =>
    refine ⟨?_, ?_, ?_, ?_⟩ <;> simp [initResolver]
  | register st nid s w p now hr ih =>
    exact resolverWF_registerPane st nid s w p now ih

/-! ### Lemmas about `split('/')` and the base command -/

theorem splitChar_ne_nil (sep : Char) (l : List Char) : splitChar sep l ≠ [] := by
  cases l with
  | nil => simp [splitChar]
  | cons c rest =>
    unfold splitChar
    cases h : splitChar sep rest with
    | nil => simp
    | cons a t => by_cases hc : c = sep <;> simp [hc]

theorem splitChar_not_mem (sep : Char) (l : List Char) (h : sep ∉ l) :
    splitChar sep l = [l] := by
  induction l with
  | nil => rfl
  | cons c rest ih =>
    have hc : c ≠ sep := fun e => h (by simp [e])
    have hrest : sep ∉ rest := fun hm => h (List.mem_cons_of_mem _ hm)
    unfold splitChar
    rw [ih hrest]
    simp [hc]

theorem splitChar_length_ge_two (sep : Char) (l : List Char) (h : sep ∈ l) :
    2 ≤ (splitChar sep l).length := by
  induction l with
  | nil => simp at h
  | cons c rest ih =>
    unfold splitChar
    cases hs : splitChar sep rest with
    | nil => exact absurd hs (splitChar_ne_nil sep rest)
    | cons a t =>
      by_cases hc : c = sep
      · simp [hc]
      · have hrest : sep ∈ rest := by
          rcases List.mem_cons.mp h with e | hm
          · exact absurd e.symm hc
          · exact hm
        have h2 := ih hrest
        rw [hs] at h2
        simp only [List.length_cons] at h2 ⊢
        rw [if_neg hc]
        simp only [List.length_cons]
        omega

theorem getLastD_ne_nil {α : Type} {t : List α} (h : t ≠ []) (d1 d2 : α) :
    t.getLastD d1 = t.getLastD d2 := by
  cases t with
  | nil => exact absurd rfl h
  | cons x xs => rw [List.getLastD_cons, List.getLastD_cons]

theorem splitChar_cons_eq (sep c : Char) {rest a : List Char} {t : List (List Char)}
    (hs : splitChar sep rest = a :: t) :
    splitChar sep (c :: rest) =
      if c = sep then [] :: a :: t else (c :: a) :: t := by
  unfold splitChar
  rw [hs]

theorem getLastD_splitChar_append (sep : Char) (l2 : List Char) :
    ∀ l1 : List Char,
      (splitChar sep (l1 ++ sep :: l2)).getLastD [] =
        (splitChar sep l2).getLastD [] := by
  intro l1
  induction l1 with
  | nil =>
    obtain ⟨a, t, hs⟩ : ∃ a t, splitChar sep l2 = a :: t := by
      cases hs : splitChar sep l2 with
      | nil => exact absurd hs (splitChar_ne_nil sep l2)
      | cons a t => exact ⟨a, t, rfl⟩
    rw [List.nil_append, splitChar_cons_eq sep sep hs, if_pos rfl, hs,
      List.getLastD_cons]
  | cons c l1 ih =>
    obtain ⟨a, t, hs⟩ : ∃ a t, splitChar sep (l1 ++ sep :: l2) = a :: t := by
      cases hs : splitChar sep (l1 ++ sep :: l2) with
      | nil => exact absurd hs (splitChar_ne_nil _ _)
      | cons a t => exact ⟨a, t, rfl⟩
    have ht : t ≠ [] := by
      have h2 := splitChar_length_ge_two sep (l1 ++ sep :: l2) (by simp)
      rw [hs] at h2
      intro e
      subst e
      simp at h2
    rw [hs] at ih
    rw [List.cons_append, splitChar_cons_eq sep c hs]
    by_cases hc : c = sep
    · rw [if_pos hc, List.getLastD_cons]
      exact ih
    · rw [if_neg hc, List.getLastD_cons]
      rw [List.getLastD_cons] at ih
      exact (getLastD_ne_nil ht (c :: a) a).trans ih

theorem baseCommandOf_plain (b : String) (hne : b.data ≠ []) (hslash : '/' ∉ b.data) :
    baseCommandOf b = b := by
  unfold baseCommandOf
  rw [splitChar_not_mem _ _ hslash]
  simp only [List.getLastD_cons, List.getLastD_nil]
  rw [if_neg (by simpa [List.isEmpty_iff] using hne)]

theorem baseCommandOf_prefixed (p b : String) (hne : b.data ≠ [])
    (hslash : '/' ∉ b.data) : baseCommandOf (p ++ "/" ++ b) = b := by
  unfold baseCommandOf
  have hdata : (p ++ "/" ++ b).data = p.data ++ '/' :: b.data := by
    simp [String.data_append]
  rw [hdata, getLastD_splitChar_append, splitChar_not_mem _ _ hslash]
  simp only [List.getLastD_cons, List.getLastD_nil]
  rw [if_neg (by simpa [List.isEmpty_iff] using hne)]

/-! ### Lemmas about trigger debouncing -/

theorem triggerSequential_fired (st : IntegratorState) (p : String) (t : Int)
    (h : (triggerSequentialAnalysis st p t).2 = true) :
    (triggerSequentialAnalysis st p t).1.activeAnalyses = st.activeAnalyses ∧
    st.activeAnalyses.contains ("sequential_" ++ p) = false ∧
    sget (triggerSequentialAnalysis st p t).1.lastTriggers ("sequential_" ++ p) =
      some t := by
  by_cases hact : st.activeAnalyses.contains ("sequential_" ++ p) = true
  · have hmem : ("sequential_" ++ p) ∈ st.activeAnalyses := by simpa using hact
    simp [triggerSequentialAnalysis, hmem] at h
  · have hact' : st.activeAnalyses.contains ("sequential_" ++ p) = false := by
      simpa using hact
    have hmem : ("sequential_" ++ p) ∉ st.activeAnalyses := by simpa using hact
    cases hsg : sget st.lastTriggers ("sequential_" ++ p) with
    | some lastT =>
      by_cases hwin : t - lastT < sequentialDebounceMs
      · simp [triggerSequentialAnalysis, hmem, hsg, hwin] at h
      · refine ⟨?_, hact', ?_⟩ <;>
          simp [triggerSequentialAnalysis, hmem, hsg, hwin, sget_sset_self]
    | none =>
      refine ⟨?_, hact', ?_⟩ <;>
        simp [triggerSequentialAnalysis, hmem, hsg, sget_sset_self]

theorem triggerSequential_step_absorb (st1 : IntegratorState) (p : String)
    (t u : Int)
    (hact : st1.activeAnalyses.contains ("sequential_" ++ p) = false)
    (hlast : sget st1.lastTriggers ("sequential_" ++ p) = some t)
    (hwin : u - t < sequentialDebounceMs) :
    triggerSequentialAnalysis st1 p u = (st1, false) := by
  have hmem : ("sequential_" ++ p) ∉ st1.activeAnalyses := by simpa using hact
  simp [triggerSequentialAnalysis, hmem, hlast, hwin]

theorem triggerSequential_step_fire (st1 : IntegratorState) (p : String)
    (t u : Int)
    (hact : st1.activeAnalyses.contains ("sequential_" ++ p) = false)
    (hlast : sget st1.lastTriggers ("sequential_" ++ p) = some t)
    (hwin : sequentialDebounceMs ≤ u - t) :
    (triggerSequentialAnalysis st1 p u).2 = true := by
  have hmem : ("sequential_" ++ p) ∉ st1.activeAnalyses := by simpa using hact
  simp [triggerSequentialAnalysis, hmem, hlast, not_lt.mpr hwin]

theorem triggerDoc_fired (st : IntegratorState) (lib lt : String) (t : Int)
    (h : (triggerDocumentationLookup st lib lt t).2 = true) :
    sget (triggerDocumentationLookup st lib lt t).1.lastTriggers
      ("context7_" ++ lib ++ "_" ++ lt) = some t := by
  cases hsg : sget st.lastTriggers ("context7_" ++ lib ++ "_" ++ lt) with
  | some lastT =>
    by_cases hwin : t - lastT < context7DebounceMs
    · simp [triggerDocumentationLookup, hsg, hwin] at h
    · simp [triggerDocumentationLookup, hsg, hwin, sget_sset_self]
  | none => simp [triggerDocumentationLookup, hsg, sget_sset_self]

theorem triggerDoc_step_absorb (st1 : IntegratorState) (lib lt : String)
    (t u : Int)
    (hlast : sget st1.lastTriggers ("context7_" ++ lib ++ "_" ++ lt) = some t)
    (hwin : u - t < context7DebounceMs) :
    triggerDocumentationLookup st1 lib lt u = (st1, false) := by
  simp [triggerDocumentationLookup, hlast, hwin]

theorem triggerDoc_step_fire (st1 : IntegratorState) (lib lt : String)
    (t u : Int)
    (hlast : sget st1.lastTriggers ("context7_" ++ lib ++ "_" ++ lt) = some t)
    (hwin : context7DebounceMs ≤ u - t) :
    (triggerDocumentationLookup st1 lib lt u).2 = true := by
  simp [triggerDocumentationLookup, hlast, not_lt.mpr hwin]

theorem runSequential_absorbed (p : String) (t : Int) :
    ∀ (times : List Int) (st1 : IntegratorState) (n : Nat),
      st1.activeAnalyses.contains ("sequential_" ++ p) = false →
      sget st1.lastTriggers ("sequential_" ++ p) = some t →
      (∀ u ∈ times, u - t < sequentialDebounceMs) →
      times.foldl
        (fun acc now =>
          let r := triggerSequentialAnalysis acc.1 p now
          (r.1, acc.2 + (if r.2 then 1 else 0)))
        (st1, n) = (st1, n) := by
  intro times
  induction times with
  | nil =>
    intro st1 n _ _ _
    rfl
  | cons u rest ih =>
    intro st1 n hact hlast hall
    rw [List.foldl_cons]
    have hstep := triggerSequential_step_absorb st1 p t u hact hlast
      (hall u (by simp))
    dsimp only
    rw [hstep]
    simpa using ih st1 n hact hlast (fun v hv => hall v (by simp [hv]))

/-! ### Lemmas about the error watcher -/

theorem startWatching_errorCache (st : ErrorWatcherState) (pane : TmuxPane) :
    (startWatching st pane).errorCache = st.errorCache := by
  unfold startWatching
  split <;> rfl

theorem startWatching_watched (st : ErrorWatcherState) (pane : TmuxPane) :
    (startWatching st pane).watchedPanes.contains pane.id = true := by
  unfold startWatching
  split
  · next h => exact h
  · simp [List.contains_cons]

/-! ### Lemmas about first-match classification -/

theorem findSome?_ne_none {α β : Type} {f : α → Option β} {l : List α} {x : α}
    (hx : x ∈ l) (hf : f x ≠ none) : l.findSome? f ≠ none := by
  induction l with
  | nil => simp at hx
  | cons a t ih =>
    cases hfa : f a with
    | none =>
      rcases List.mem_cons.mp hx with e | hm
      · exact absurd (e ▸ hfa) hf
      · simpa [List.findSome?_cons, hfa] using ih hm
    | some b => simp [List.findSome?_cons, hfa]

theorem altCI_ne_none {α : Type} {alts : List String} {s : List Char} {v : String}
    (hv : v ∈ alts) (hs : (stripPrefixCI v.data s).isSome = true)
    (k : List Char → List Char → Option α) (hk : ∀ m rest, k m rest ≠ none) :
    altCI alts s k ≠ none := by
  unfold altCI
  apply findSome?_ne_none hv
  cases hsp : stripPrefixCI v.data s with
  | none => rw [hsp] at hs; simp at hs
  | some rest =>
    dsimp only
    exact hk _ _

theorem generalErrorExec_ne_none {line : String} {v : String}
    (hv : v ∈ generalErrorVocab) (hs : containsSubstrCI v line.data = true) :
    generalErrorExec line ≠ none := by
  unfold generalErrorExec
  unfold containsSubstrCI at hs
  obtain ⟨suf, hsuf, hstrip⟩ := List.any_eq_true.mp hs
  exact findSome?_ne_none hsuf
    (altCI_ne_none hv hstrip _ (fun m rest => by simp))

theorem generalWarningExec_ne_none {line : String} {v : String}
    (hv : v ∈ generalWarningVocab) (hs : containsSubstrCI v line.data = true) :
    generalWarningExec line ≠ none := by
  unfold generalWarningExec
  unfold containsSubstrCI at hs
  obtain ⟨suf, hsuf, hstrip⟩ := List.any_eq_true.mp hs
  exact findSome?_ne_none hsuf
    (altCI_ne_none hv hstrip _ (fun m rest => by simp))

theorem matchErrorPatterns_ne_none_of_mem {p : ErrorPattern}
    (hp : p ∈ errorPatterns) (line filePath : String) (ln now : Nat)
    (hexec : p.exec line ≠ none) :
    matchErrorPatterns errorPatterns line filePath ln now ≠ none := by
  unfold matchErrorPatterns
  apply findSome?_ne_none hp
  cases he : p.exec line with
  | none => exact absurd he hexec
  | some m => simp [he]

theorem generalErrorPattern_mem : generalErrorPattern ∈ errorPatterns := by
  unfold errorPatterns
  exact List.Mem.tail _ (List.Mem.tail _ (List.Mem.tail _ (List.Mem.tail _
    (List.Mem.tail _ (List.Mem.head _)))))

theorem generalWarningPattern_mem : generalWarningPattern ∈ errorPatterns := by
  unfold errorPatterns
  exact List.Mem.tail _ (List.Mem.tail _ (List.Mem.tail _ (List.Mem.tail _
    (List.Mem.tail _ (List.Mem.tail _ (List.Mem.head _))))))

/-! ### Lemmas about the tail-offset trace -/

theorem runTail_start_le (l : List Nat) : ∀ (p : Nat),
    List.Chain' (· ≤ ·) (p :: l) → ∀ r ∈ runTail p l, p ≤ r.1 := by
  induction l with
  | nil =>
    intro p _ r hr
    simp [runTail] at hr
  | cons s rest ih =>
    intro p hch r hr
    have hps : p ≤ s := (List.chain'_cons.mp hch).1
    have hch' : List.Chain' (· ≤ ·) (s :: rest) := (List.chain'_cons.mp hch).2
    unfold runTail at hr
    rw [if_neg (by omega)] at hr
    by_cases hse : s = p
    · rw [if_pos hse] at hr
      exact ih p (hse ▸ hch') r hr
    · rw [if_neg hse] at hr
      rcases List.mem_cons.mp hr with e | hmem
      · rw [e]
      · exact le_trans hps (ih s hch' r hmem)

theorem runTail_pairwise (l : List Nat) : ∀ (p : Nat),
    List.Chain' (· ≤ ·) (p :: l) →
    (runTail p l).Pairwise (fun r1 r2 => r1.2 ≤ r2.1) := by
  induction l with
  | nil =>
    intro p _
    simp [runTail]
  | cons s rest ih =>
    intro p hch
    have hps : p ≤ s := (List.chain'_cons.mp hch).1
    have hch' : List.Chain' (· ≤ ·) (s :: rest) := (List.chain'_cons.mp hch).2
    unfold runTail
    rw [if_neg (by omega)]
    by_cases hse : s = p
    · rw [if_pos hse]
      exact ih p (hse ▸ hch')
    · rw [if_neg hse]
      exact List.Pairwise.cons (fun r hr => runTail_start_le rest s hch' r hr)
        (ih s hch')

/-! ### Lemmas: updateLastSeen only refreshes timestamps -/

/-- The identifier fields seen through either map are unchanged by
`updateLastSeen`. -/
theorem liveMapping_updateLastSeen (st : ResolverState) (k : String) (now : Nat)
    {h id : String} (hl : LiveMapping st h id) :
    LiveMapping (updateLastSeen st k now) h id := by
  obtain ⟨m, m', hm, hmn, hms, hm', hm'n, hm's⟩ := hl
  unfold updateLastSeen
  cases hres : sget st.nativeToStructured k with
  | none => exact ⟨m, m', hm, hmn, hms, hm', hm'n, hm's⟩
  | some mk =>
    have hn2s : ∃ m1, sget (sset st.nativeToStructured k { mk with lastSeen := now }) h =
        some m1 ∧ m1.nativeId = h ∧ m1.structuredId = id := by
      by_cases hkh : k = h
      · subst hkh
        rw [hres] at hm
        cases hm
        exact ⟨_, sget_sset_self _ _ _, hmn, hms⟩
      · exact ⟨m, by rw [sget_sset_ne _ _ _ _ (fun e => hkh e.symm)]; exact hm, hmn, hms⟩
    have hs2n : ∃ m2', sget
        (match sget st.structuredToNative mk.structuredId with
         | some m2 =>
           if m2 = mk then sset st.structuredToNative mk.structuredId { mk with lastSeen := now }
           else st.structuredToNative
         | none => st.structuredToNative) id =
        some m2' ∧ m2'.nativeId = h ∧ m2'.structuredId = id := by
      cases hres2 : sget st.structuredToNative mk.structuredId with
      | none => exact ⟨m', hm', hm'n, hm's⟩
      | some m2 =>
        dsimp only
        by_cases hm2 : m2 = mk
        · simp only [if_pos hm2]
          by_cases hsid : mk.structuredId = id
          · have hmk : mk = m' := by
              rw [hsid] at hres2
              rw [hres2] at hm'
              exact hm2.symm.trans (Option.some.inj hm')
            refine ⟨{ mk with lastSeen := now }, ?_, ?_, ?_⟩
            · rw [hsid]
              exact sget_sset_self _ _ _
            · show mk.nativeId = h
              rw [hmk]
              exact hm'n
            · show mk.structuredId = id
              exact hsid
          · refine ⟨m', ?_, hm'n, hm's⟩
            rw [sget_sset_ne _ _ _ _ (fun e => hsid e.symm)]
            exact hm'
        · simp only [if_neg hm2]
          exact ⟨m', hm', hm'n, hm's⟩
    obtain ⟨m1, h1, h1n, h1s⟩ := hn2s
    obtain ⟨m2', h2, h2n, h2s⟩ := hs2n
    exact ⟨m1, m2', h1, h1n, h1s, h2, h2n, h2s⟩

/-! ### Claim C1 -/

/-- C1, counterexample: `registerPane` accepts a native handle that does not
start with `%` (here `"abc"`); its mapping is live in both maps, yet
`resolveToStructured (resolveToNative "sess:0.0")` returns `"abc"`, not
`"sess:0.0"`, because `resolveToStructured` passes non-`%` inputs through
unchanged. So the round-trip law fails for such a registered handle. -/
theorem C1_counterexample :
    LiveMapping (registerPane initResolver "abc" "sess" 0 0 0).1 "abc" "sess:0.0" ∧
    (resolveToStructured
        (resolveToNative (registerPane initResolver "abc" "sess" 0 0 0).1 "sess:0.0" 1).2
        (resolveToNative (registerPane initResolver "abc" "sess" 0 0 0).1 "sess:0.0" 1).1
        2).1 ≠ "sess:0.0" := by
  constructor
  · exact ⟨{ nativeId := "abc", structuredId := "sess:0.0", sessionName := "sess",
             windowIndex := 0, paneIndex := 0, lastSeen := 0 },
           { nativeId := "abc", structuredId := "sess:0.0", sessionName := "sess",
             windowIndex := 0, paneIndex := 0, lastSeen := 0 },
           by decide⟩
  · decide

/-- C1, amended: for a live registered mapping whose native handle starts
with `%` and whose structured id does not (the shapes the resolver's
format tests assume), `resolveToNative` and `resolveToStructured` are
mutually inverse. -/
theorem C1_resolver_roundtrip (st : ResolverState) (h id : String) (now now' : Nat)
    (hlive : LiveMapping st h id)
    (hnat : startsWithPercent h = true)
    (hstr : startsWithPercent id = false) :
    (resolveToNative (resolveToStructured st h now).2
        (resolveToStructured st h now).1 now').1 = h ∧
    (resolveToStructured (resolveToNative st id now).2
        (resolveToNative st id now).1 now').1 = id := by
  obtain ⟨m, m', hm, hmn, hms, hm', hm'n, hm's⟩ := hlive
  have hlive0 : LiveMapping st h id := ⟨m, m', hm, hmn, hms, hm', hm'n, hm's⟩
  constructor
  · have h1 : resolveToStructured st h now = (id, updateLastSeen st h now) := by
      unfold resolveToStructured
      rw [hnat, hm]
      simp [hms]
    rw [h1]
    obtain ⟨m1, m1', hm1, hm1n, hm1s, hm1', hm1'n, hm1's⟩ :=
      liveMapping_updateLastSeen st h now hlive0
    unfold resolveToNative
    rw [hstr, hm1']
    simp [hm1'n]
  · have h2 : resolveToNative st id now = (h, updateLastSeen st h now) := by
      unfold resolveToNative
      rw [hstr, hm']
      simp [hm'n]
    rw [h2]
    obtain ⟨m1, m1', hm1, hm1n, hm1s, hm1', hm1'n, hm1's⟩ :=
      liveMapping_updateLastSeen st h now hlive0
    unfold resolveToStructured
    rw [hnat, hm1]
    simp [hm1s]

/-- C1 witness: the amended round-trip evaluated on a concretely registered
pane `%3 ↔ dev:0.0`. -/
theorem C1_resolver_roundtrip_witness :
    (resolveToNative
        (resolveToStructured (registerPane initResolver "%3" "dev" 0 0 5).1 "%3" 6).2
        (resolveToStructured (registerPane initResolver "%3" "dev" 0 0 5).1 "%3" 6).1 7).1
      = "%3" ∧
    (resolveToStructured
        (resolveToNative (registerPane initResolver "%3" "dev" 0 0 5).1 "dev:0.0" 6).2
        (resolveToNative (registerPane initResolver "%3" "dev" 0 0 5).1 "dev:0.0" 6).1 7).1
      = "dev:0.0" :=
  C1_resolver_roundtrip (registerPane initResolver "%3" "dev" 0 0 5).1 "%3" "dev:0.0" 6 7
    ⟨{ nativeId := "%3", structuredId := "dev:0.0", sessionName := "dev",
       windowIndex := 0, paneIndex := 0, lastSeen := 5 },
     { nativeId := "%3", structuredId := "dev:0.0", sessionName := "dev",
       windowIndex := 0, paneIndex := 0, lastSeen := 5 },
     by decide⟩
    (by decide) (by decide)

/-! ### Claim C2 -/

/-- C2, counterexample: register `%1` at `s:0.0`, then re-register the same
native handle at `s:0.1`.  `registerPane` overwrites the native-map entry
but leaves the old structured-map entry `s:0.0` in place, and
`clearSession "s"` only scans the native-map values, so after clearing, the
structured-to-native direction still holds a mapping whose sessionName is
`"s"` — refuting "no mapping remains in either internal direction". -/
theorem C2_counterexample :
    (sget (clearSession
        (registerPane (registerPane initResolver "%1" "s" 0 0 0).1 "%1" "s" 0 1 1).1
        "s").structuredToNative "s:0.0").map (·.sessionName) = some "s" := by
  decide

/-- C2, amended: after `clearSession s` on a state reachable by
`registerPane` calls, no mapping for session `s` remains in the
native-to-structured direction, and mappings of every other session are
left exactly as they were in both directions.  (Orphaned
structured-to-native entries for `s` itself, left behind by re-registering
a native handle at a new position, can survive — see the counterexample.) -/
theorem C2_clearSession_amended (st : ResolverState) (s : String)
    (hr : Reachable st) :
    (∀ k m, sget (clearSession st s).nativeToStructured k = some m →
      m.sessionName ≠ s) ∧
    (∀ k m, m.sessionName ≠ s →
      (sget (clearSession st s).nativeToStructured k = some m ↔
        sget st.nativeToStructured k = some m)) ∧
    (∀ k m, m.sessionName ≠ s →
      (sget (clearSession st s).structuredToNative k = some m ↔
        sget st.structuredToNative k = some m)) := by
  obtain ⟨h1, h2, h3, h4⟩ := reachable_wf hr
  rw [clearSession_eq]
  dsimp only
  refine ⟨?_, ?_, ?_⟩
  · intro k m hm hsess
    rw [sget_eraseKeys] at hm
    split at hm
    · exact Option.noConfusion hm
    · next hknot =>
      have hmem : (k, m) ∈ st.nativeToStructured := sget_mem hm
      have hfil : m ∈ getSessionMappings st s := by
        unfold getSessionMappings svalues
        exact List.mem_filter.mpr
          ⟨List.mem_map.mpr ⟨(k, m), hmem, rfl⟩, by simp [hsess]⟩
      exact hknot (List.mem_map.mpr ⟨m, hfil, (h1 (k, m) hmem).1⟩)
  · intro k m hsess
    rw [sget_eraseKeys]
    by_cases hkK : k ∈ (getSessionMappings st s).map (·.nativeId)
    · rw [if_pos hkK]
      constructor
      · intro h
        exact Option.noConfusion h
      · intro hm
        exfalso
        obtain ⟨mp, hmp, hmpk⟩ := List.mem_map.mp hkK
        obtain ⟨hmps, k0, hk0⟩ := mem_getSessionMappings hmp
        have hk0k : k0 = k := ((h1 (k0, mp) hk0).1).symm.trans hmpk
        subst hk0k
        have hmmp : m = mp :=
          entry_eq_of_nodup h3 (sget_mem hm) hk0
        exact hsess (hmmp ▸ hmps)
    · rw [if_neg hkK]
  · intro k m hsess
    rw [sget_eraseKeys]
    by_cases hkK : k ∈ (getSessionMappings st s).map (·.structuredId)
    · rw [if_pos hkK]
      constructor
      · intro h
        exact Option.noConfusion h
      · intro hm
        exfalso
        obtain ⟨mp, hmp, hmpk⟩ := List.mem_map.mp hkK
        obtain ⟨hmps, k0, hk0⟩ := mem_getSessionMappings hmp
        have hentry := h2 (k, m) (sget_mem hm)
        have hmpbuild := (h1 (k0, mp) hk0).2
        have hbuild : buildStructuredId m.sessionName m.windowIndex m.paneIndex =
            buildStructuredId mp.sessionName mp.windowIndex mp.paneIndex := by
          rw [← hentry.2, ← hmpbuild]
          exact hentry.1.trans hmpk.symm
        exact hsess ((build_session_inj hbuild).trans hmps)
    · rw [if_neg hkK]

/-- C2 witness: concrete two-session state; clearing session `a` leaves the
session-`b` structured entry untouched. -/
theorem C2_clearSession_amended_witness :
    sget (clearSession
        (registerPane (registerPane initResolver "%1" "a" 0 0 0).1 "%2" "b" 0 0 1).1
        "a").structuredToNative "b:0.0" =
      some { nativeId := "%2", structuredId := "b:0.0", sessionName := "b",
             windowIndex := 0, paneIndex := 0, lastSeen := 1 } := by
  have h := C2_clearSession_amended
    (registerPane (registerPane initResolver "%1" "a" 0 0 0).1 "%2" "b" 0 0 1).1 "a"
    (Reachable.register _ "%2" "b" 0 0 1
      (Reachable.register _ "%1" "a" 0 0 0 Reachable.init))
  exact (h.2.2 "b:0.0" _ (by decide)).mpr (by decide)

/-! ### Claim C4 -/

/-- C4, counterexample: a watched file at offset 0 whose content grows to a
single newline has size (1) strictly greater than the recorded offset (0),
yet `handleFileChange` invokes no callback — the `newContent.trim()`
truthiness guard silently drops whitespace-only content, contradicting
"invokes the registered callback … regardless of its content". -/
theorem C4_counterexample :
    (sget (watchFile defaultWatcherOptions initFileWatcher "f.log" 0).filePositions
        "f.log").getD 0 < (['\n'] : List Char).length ∧
    (handleFileChange (watchFile defaultWatcherOptions initFileWatcher "f.log" 0)
        "f.log" ['\n']).2 = none := by
  decide

/-- C4, amended: on a change notification with size strictly greater than
the recorded offset, the tailer reads exactly the byte range
`[offset, size)`, delivers its decoded text to the callback precisely when
that text is not whitespace-only, and advances the offset to `size`. -/
theorem C4_tailer_delivery (st : FileWatcherState) (filePath : String)
    (file : List Char)
    (hcb : st.callbacks.contains filePath = true)
    (hgt : (sget st.filePositions filePath).getD 0 < file.length) :
    (handleFileChange st filePath file).2 =
      (if jsTrim ⟨(file.drop ((sget st.filePositions filePath).getD 0)).take
            (file.length - (sget st.filePositions filePath).getD 0)⟩ ≠ "" then
         some (⟨(file.drop ((sget st.filePositions filePath).getD 0)).take
            (file.length - (sget st.filePositions filePath).getD 0)⟩ : String)
       else none) ∧
    sget (handleFileChange st filePath file).1.filePositions filePath =
      some file.length := by
  unfold handleFileChange
  rw [if_neg (not_not_intro hcb)]
  rw [if_neg (by omega), if_neg (by omega)]
  exact ⟨rfl, sget_sset_self _ _ _⟩

/-- C4 witness: appending `err\n` to a freshly watched empty file delivers
exactly that text and advances the offset to 4. -/
theorem C4_tailer_delivery_witness :
    (handleFileChange (watchFile defaultWatcherOptions initFileWatcher "f.log" 0)
        "f.log" "err\n".data).2 = some "err\n" ∧
    sget (handleFileChange (watchFile defaultWatcherOptions initFileWatcher "f.log" 0)
        "f.log" "err\n".data).1.filePositions "f.log" = some 4 := by
  have h := C4_tailer_delivery
    (watchFile defaultWatcherOptions initFileWatcher "f.log" 0) "f.log" "err\n".data
    (by decide) (by decide)
  refine ⟨?_, ?_⟩
  · rw [h.1]
    decide
  · rw [h.2]
    decide

/-! ### Claim C5 -/

/-- C5: the recorded offset follows `stepOffset` on every notification for a
watched file; `stepOffset` is non-decreasing whenever the observed size is
not below the offset and resets to 0 when it is; and over any append-only
trace of sizes the byte ranges read are pairwise disjoint, so no delivered
byte is ever read again, and after a truncation reading restarts at 0. -/
theorem C5_offset_monotone :
    (∀ (st : FileWatcherState) (f : String) (file : List Char),
      st.callbacks.contains f = true →
      (sget (handleFileChange st f file).1.filePositions f).getD 0 =
        stepOffset ((sget st.filePositions f).getD 0) file.length) ∧
    (∀ pos size, pos ≤ size → pos ≤ stepOffset pos size) ∧
    (∀ pos size, size < pos → stepOffset pos size = 0) ∧
    (∀ pos sizes, List.Chain' (· ≤ ·) (pos :: sizes) →
      (runTail pos sizes).Pairwise (fun r1 r2 => r1.2 ≤ r2.1)) := by
  refine ⟨?_, ?_, ?_, ?_⟩
  · intro st f file hcb
    unfold handleFileChange stepOffset
    rw [if_neg (not_not_intro hcb)]
    by_cases h1 : file.length < (sget st.filePositions f).getD 0
    · rw [if_pos h1, if_pos h1]
      simp [sget_sset_self]
    · rw [if_neg h1, if_neg h1]
      by_cases h2 : file.length = (sget st.filePositions f).getD 0
      · rw [if_pos h2, if_pos h2]
      · rw [if_neg h2, if_neg h2]
        simp [sget_sset_self]
  · intro pos size h
    unfold stepOffset
    rw [if_neg (by omega)]
    by_cases h2 : size = pos
    · rw [if_pos h2]
    · rw [if_neg h2]
      omega
  · intro pos size h
    unfold stepOffset
    rw [if_pos h]
  · exact fun pos sizes h => runTail_pairwise sizes pos h

/-- C5 witness: a concrete growth-then-truncation history. -/
theorem C5_offset_monotone_witness :
    (sget (handleFileChange
        (watchFile defaultWatcherOptions initFileWatcher "f.log" 0) "f.log"
        "ab".data).1.filePositions "f.log").getD 0 = stepOffset 0 2 ∧
    2 ≤ stepOffset 2 5 ∧
    stepOffset 5 2 = 0 ∧
    (runTail 0 [2, 2, 5]).Pairwise (fun r1 r2 => r1.2 ≤ r2.1) := by
  refine ⟨?_, C5_offset_monotone.2.1 2 5 (by decide),
    C5_offset_monotone.2.2.1 5 2 (by decide),
    C5_offset_monotone.2.2.2 0 [2, 2, 5] (by simp [List.chain'_cons])⟩
  have h := C5_offset_monotone.1
    (watchFile defaultWatcherOptions initFileWatcher "f.log" 0) "f.log" "ab".data
    (by decide)
  rw [h]
  decide

/-! ### Claim C3 -/

/-- C3: `escapeForTmuxSendKeys` is exactly the composition, in the fixed
source order, of the eight independent character-class replacements —
backslash doubling, then double quote, single quote (quote-break-requote),
dollar, backtick, semicolon, pipe, and ampersand escaping. -/
theorem C3_escaper_composition (s : String) :
    escapeForTmuxSendKeys s =
      escapeAmpersand (escapePipe (escapeSemicolon (escapeBacktick
        (escapeDollar (escapeSingleQuote (escapeDoubleQuote
          (escapeBackslash s))))))) := rfl

/-! ### Claim C10 -/

/-- C10: command validation checks the final path component (the substring
after the last `/`), so a denylisted command invoked through any path
prefix is treated exactly like the bare command name — same rejection,
same warning flag. -/
theorem C10_validate_path_prefix (p b : String) (args : List String)
    (allowDangerous : Bool) (hne : b.data ≠ []) (hslash : '/' ∉ b.data) :
    validateCommand allowDangerous (p ++ "/" ++ b) args =
      validateCommand allowDangerous b args := by
  unfold validateCommand
  rw [baseCommandOf_prefixed p b hne hslash, baseCommandOf_plain b hne hslash]

/-- C10 witness: `/bin/rm` is rejected exactly like `rm`. -/
theorem C10_validate_path_prefix_witness :
    validateCommand false "/bin/rm" [] = validateCommand false "rm" [] ∧
    validateCommand false "/bin/rm" [] =
      Except.error
        "Dangerous command blocked: rm. Use allowDangerous option to override." := by
  have h := C10_validate_path_prefix "/bin" "rm" [] false (by decide) (by decide)
  have he : ("/bin" : String) ++ "/" ++ "rm" = "/bin/rm" := by decide
  rw [he] at h
  exact ⟨h, by rw [h]; rfl⟩

/-! ### Claim C6 -/

/-- C6: classifying the concrete TypeScript diagnostic line returns the
first matching pattern's result — the typescript pattern, first in the
seeded order — with kind error, language typescript, file `src/index.ts`,
line 42, column 10, and the TS message text. -/
theorem C6_typescript_line :
    matchErrorPatterns errorPatterns
      "src/index.ts(42,10): error TS2339: Property 'foo' does not exist on type 'string'."
      "logs/p.log" 0 0 =
      some { id := "logs/p.log:0:0", paneId := "p"
             file := some "src/index.ts", line := some 42, column := some 10
             message := "Property 'foo' does not exist on type 'string'."
             type := .error, language := some "typescript", timestamp := 0 } := by
  decide

/-! ### Claim C7 -/

/-- C7, counterexample: in the seeded order the generic error and warning
patterns sit at positions 5 and 6 of 9, followed by `npm_error` and
`docker_error` — they are not the last patterns of the list. -/
theorem C7_counterexample :
    (errorPatterns.map (·.name)).drop 5 =
      ["general_error", "general_warning", "npm_error", "docker_error"] ∧
    (errorPatterns.map (·.name)).getLastD "" ≠ "general_warning" ∧
    (errorPatterns.map (·.name)).getLastD "" ≠ "general_error" := by
  refine ⟨rfl, by decide, by decide⟩

/-- C7, amended: the generic catch-all error and warning patterns follow all
five language-specific patterns (though `npm_error` and `docker_error`
come after them), and any line containing the generic failure vocabulary
is classified by some pattern. -/
theorem C7_generic_patterns (line filePath : String) (ln now : Nat)
    (h : (generalErrorVocab ++ generalWarningVocab).any
        (fun v => containsSubstrCI v line.data) = true) :
    (errorPatterns.map (·.name)).take 7 =
      ["typescript", "javascript", "python", "rust", "go",
       "general_error", "general_warning"] ∧
    matchErrorPatterns errorPatterns line filePath ln now ≠ none := by
  refine ⟨rfl, ?_⟩
  obtain ⟨v, hv, hc⟩ := List.any_eq_true.mp h
  rcases List.mem_append.mp hv with hv | hv
  · exact matchErrorPatterns_ne_none_of_mem generalErrorPattern_mem line filePath
      ln now (generalErrorExec_ne_none hv hc)
  · exact matchErrorPatterns_ne_none_of_mem generalWarningPattern_mem line filePath
      ln now (generalWarningExec_ne_none hv hc)

/-- C7 witness: the spec's own sample line `ERROR: Something went wrong!` is
classified. -/
theorem C7_generic_patterns_witness :
    (errorPatterns.map (·.name)).take 7 =
      ["typescript", "javascript", "python", "rust", "go",
       "general_error", "general_warning"] ∧
    matchErrorPatterns errorPatterns "ERROR: Something went wrong!"
      "logs/a.log" 0 0 ≠ none :=
  C7_generic_patterns "ERROR: Something went wrong!" "logs/a.log" 0 0 (by decide)

/-! ### Claim C8 -/

/-- C8: once a trigger fires for a key, every qualifying event for the same
key inside the category's cooldown window is silently absorbed — the state
is unchanged and nothing is emitted, even over an arbitrary burst — and an
event at or after the window boundary fires again; both for the
5-minute sequential-analysis category and the 10-minute
documentation-lookup category. -/
theorem C8_trigger_cooldown :
    (∀ (st : IntegratorState) (p : String) (t now : Int),
      (triggerSequentialAnalysis st p t).2 = true →
      now - t < sequentialDebounceMs →
      triggerSequentialAnalysis (triggerSequentialAnalysis st p t).1 p now =
        ((triggerSequentialAnalysis st p t).1, false)) ∧
    (∀ (st : IntegratorState) (p : String) (t : Int) (times : List Int),
      (triggerSequentialAnalysis st p t).2 = true →
      (∀ u ∈ times, u - t < sequentialDebounceMs) →
      runSequential (triggerSequentialAnalysis st p t).1 p times =
        ((triggerSequentialAnalysis st p t).1, 0)) ∧
    (∀ (st : IntegratorState) (p : String) (t now : Int),
      (triggerSequentialAnalysis st p t).2 = true →
      sequentialDebounceMs ≤ now - t →
      (triggerSequentialAnalysis (triggerSequentialAnalysis st p t).1 p now).2 =
        true) ∧
    (∀ (st : IntegratorState) (lib lt : String) (t now : Int),
      (triggerDocumentationLookup st lib lt t).2 = true →
      now - t < context7DebounceMs →
      triggerDocumentationLookup (triggerDocumentationLookup st lib lt t).1
        lib lt now = ((triggerDocumentationLookup st lib lt t).1, false)) ∧
    (∀ (st : IntegratorState) (lib lt : String) (t now : Int),
      (triggerDocumentationLookup st lib lt t).2 = true →
      context7DebounceMs ≤ now - t →
      (triggerDocumentationLookup (triggerDocumentationLookup st lib lt t).1
        lib lt now).2 = true) := by
  refine ⟨?_, ?_, ?_, ?_, ?_⟩
  · intro st p t now hf hwin
    obtain ⟨hact, hact0, hlast⟩ := triggerSequential_fired st p t hf
    exact triggerSequential_step_absorb _ p t now (hact ▸ hact0) hlast hwin
  · intro st p t times hf hall
    obtain ⟨hact, hact0, hlast⟩ := triggerSequential_fired st p t hf
    exact runSequential_absorbed p t times _ 0 (hact ▸ hact0) hlast hall
  · intro st p t now hf hwin
    obtain ⟨hact, hact0, hlast⟩ := triggerSequential_fired st p t hf
    exact triggerSequential_step_fire _ p t now (hact ▸ hact0) hlast hwin
  · intro st lib lt t now hf hwin
    exact triggerDoc_step_absorb _ lib lt t now (triggerDoc_fired st lib lt t hf) hwin
  · intro st lib lt t now hf hwin
    exact triggerDoc_step_fire _ lib lt t now (triggerDoc_fired st lib lt t hf) hwin

/-- C8 witness: fire at time 0, absorb a burst inside the window, re-fire at
the boundary; same for a documentation lookup with its 10-minute window. -/
theorem C8_trigger_cooldown_witness :
    triggerSequentialAnalysis (triggerSequentialAnalysis initIntegrator "p1" 0).1
      "p1" 1 = ((triggerSequentialAnalysis initIntegrator "p1" 0).1, false) ∧
    runSequential (triggerSequentialAnalysis initIntegrator "p1" 0).1 "p1"
      [1, 2, 299999] = ((triggerSequentialAnalysis initIntegrator "p1" 0).1, 0) ∧
    (triggerSequentialAnalysis (triggerSequentialAnalysis initIntegrator "p1" 0).1
      "p1" 300000).2 = true ∧
    triggerDocumentationLookup
      (triggerDocumentationLookup initIntegrator "react" "error" 0).1
      "react" "error" 5 =
      ((triggerDocumentationLookup initIntegrator "react" "error" 0).1, false) ∧
    (triggerDocumentationLookup
      (triggerDocumentationLookup initIntegrator "react" "error" 0).1
      "react" "error" 600000).2 = true :=
  ⟨C8_trigger_cooldown.1 initIntegrator "p1" 0 1 (by decide) (by decide),
   C8_trigger_cooldown.2.1 initIntegrator "p1" 0 [1, 2, 299999] (by decide)
     (by decide),
   C8_trigger_cooldown.2.2.1 initIntegrator "p1" 0 300000 (by decide) (by decide),
   C8_trigger_cooldown.2.2.2.1 initIntegrator "react" "error" 0 5 (by decide)
     (by decide),
   C8_trigger_cooldown.2.2.2.2 initIntegrator "react" "error" 0 600000 (by decide)
     (by decide)⟩

/-! ### Claim C9 -/

/-- C9, counterexample: after watching pane `a` (zero errors seen), querying
pane `a` and never-watched pane `b` yields the same empty list and the
same zero summary — `getErrors`/`getErrorSummary` make absence ambiguous,
refuting "absence is never ambiguous"; only the watched-pane set
distinguishes the two. -/
theorem C9_counterexample :
    getErrors (startWatching initErrorWatcher
        ⟨"a", "npm run dev", some "logs/a.log"⟩) "a" =
      getErrors (startWatching initErrorWatcher
        ⟨"a", "npm run dev", some "logs/a.log"⟩) "b" ∧
    getErrorSummary (startWatching initErrorWatcher
        ⟨"a", "npm run dev", some "logs/a.log"⟩) (some "a") =
      getErrorSummary (startWatching initErrorWatcher
        ⟨"a", "npm run dev", some "logs/a.log"⟩) (some "b") ∧
    (startWatching initErrorWatcher
        ⟨"a", "npm run dev", some "logs/a.log"⟩).watchedPanes.contains "a" =
      true ∧
    (startWatching initErrorWatcher
        ⟨"a", "npm run dev", some "logs/a.log"⟩).watchedPanes.contains "b" =
      false := by
  decide

/-- C9, amended: `getErrors` returns the cached list when one exists and the
empty list otherwise, so a freshly watched pane with no recorded errors
and a never-watched pane receive identical empty results; the two cases
are distinguishable only through the watched-pane set, not through the
error query. -/
theorem C9_absence_ambiguous (st : ErrorWatcherState) (pane : TmuxPane)
    (q : String)
    (hp : sget st.errorCache pane.id = none)
    (hq : sget st.errorCache q = none) :
    (startWatching st pane).watchedPanes.contains pane.id = true ∧
    getErrors (startWatching st pane) pane.id = [] ∧
    getErrors (startWatching st pane) pane.id =
      getErrors (startWatching st pane) q := by
  refine ⟨startWatching_watched st pane, ?_, ?_⟩
  · unfold getErrors
    rw [startWatching_errorCache, hp]
    rfl
  · unfold getErrors
    rw [startWatching_errorCache, hp, hq]

/-- C9 witness: the ambiguity at the concrete fresh watcher. -/
theorem C9_absence_ambiguous_witness :
    (startWatching initErrorWatcher
        ⟨"a", "npm run dev", some "logs/a.log"⟩).watchedPanes.contains "a" =
      true ∧
    getErrors (startWatching initErrorWatcher
        ⟨"a", "npm run dev", some "logs/a.log"⟩) "a" = [] ∧
    getErrors (startWatching initErrorWatcher
        ⟨"a", "npm run dev", some "logs/a.log"⟩) "a" =
      getErrors (startWatching initErrorWatcher
        ⟨"a", "npm run dev", some "logs/a.log"⟩) "b" :=
  C9_absence_ambiguous initErrorWatcher ⟨"a", "npm run dev", some "logs/a.log"⟩
    "b" (by decide) (by decide)

end TOrch
